import Mathlib

set_option maxHeartbeats 1000000

/-!
Verification of the sylabs/sif container library: a shallow embedding of the
DSSE signature codec (pkg/integrity/dsse.go), the descriptor lookup routines
(pkg/sif fgetters), and models of the mutation and verification orchestration
operations described by the specification, together with theorems settling the
behavioural claims about them.
-/

/-- Hash function identifiers of the Go crypto package, as used by the DSSE
codec. The zero constructor models crypto.Hash(0), meaning no hashing
(Ed25519-style algorithms). -/
inductive CryptoHash where
  | zero
  | sha256
  | sha384
  | sha512
  deriving DecidableEq, Repr

/-- A signature.Signer as seen by newDSSESigner: signerOpts is some h exactly
when the signer also implements the crypto.SignerOpts interface, advertising
hash function h. -/
structure SigSigner where
  signerOpts : Option CryptoHash
  deriving DecidableEq, Repr

/-- The dsseSigner wrapper of pkg/integrity/dsse.go, reduced to the h field
that records the hash function returned by HashFunc. -/
structure DsseSigner where
  h : CryptoHash
  deriving DecidableEq, Repr

/-- newDSSESigner from pkg/integrity/dsse.go: when the signer does not
implement crypto.SignerOpts, the sign options are overridden with SHA-256;
otherwise the hash advertised by the signer is used. -/
def newDSSESigner (s : SigSigner) : DsseSigner :=
  match s.signerOpts with
  | none => { h := CryptoHash.sha256 }
  | some h => { h := h }

/-- The fixed SIF metadata media type from pkg/integrity/dsse.go. -/
def metadataMediaType : String := "application/vnd.sylabs.sif-metadata+json"

/-- Errors arising during DSSE encoder construction. multipleHashes mirrors
errMultipleHashes; noSigners models the failure of the underlying
dsse.NewEnvelopeSigner call when no signers are supplied. -/
inductive DsseEncodeError where
  | multipleHashes
  | noSigners
  deriving DecidableEq, Repr

/-- The dsseEncoder of pkg/integrity/dsse.go, reduced to the agreed hash and
the payload type. -/
structure DsseEncoder where
  h : CryptoHash
  payloadType : String
  deriving DecidableEq, Repr

/-- The hash-agreement loop in newDSSEEncoder: h is the hash function of the
first signer, and every later signer must advertise the same hash, otherwise
errMultipleHashes is returned. -/
def encoderHashLoop (h : CryptoHash) : List SigSigner → Except DsseEncodeError CryptoHash
  | [] => Except.ok h
  | s :: rest =>
      if (newDSSESigner s).h = h then encoderHashLoop h rest
      else Except.error DsseEncodeError.multipleHashes

/-- newDSSEEncoder from pkg/integrity/dsse.go. With an empty signer list the
underlying dsse.NewEnvelopeSigner call fails, modelled by noSigners; otherwise
all signers must agree on one hash function, which the encoder records
together with the fixed metadata media type. -/
def newDSSEEncoder : List SigSigner → Except DsseEncodeError DsseEncoder
  | [] => Except.error DsseEncodeError.noSigners
  | s :: rest =>
      match encoderHashLoop (newDSSESigner s).h rest with
      | Except.error e => Except.error e
      | Except.ok h => Except.ok { h := h, payloadType := metadataMediaType }

/-- One signature of a DSSE envelope: a key identifier and signature bytes. -/
structure EnvSig where
  keyid : String
  sigBytes : List Nat
  deriving DecidableEq, Repr

/-- A DSSE envelope: payload type, payload bytes (in decoded form), and the
signatures. -/
structure Envelope where
  payloadType : String
  payload : List Nat
  signatures : List EnvSig
  deriving DecidableEq, Repr

/-- signMessage from pkg/integrity/dsse.go: the envelope signer signs body
under the encoder payload type; the signature values produced by the
underlying library are passed in as sigs. On success the encoder hash is
returned alongside the envelope. -/
def signMessage (en : DsseEncoder) (body : List Nat) (sigs : List EnvSig) :
    CryptoHash × Envelope :=
  (en.h, { payloadType := en.payloadType, payload := body, signatures := sigs })

/-- A signature.Verifier, reduced to its public key (abstracted as a Nat). -/
structure SigVerifier where
  pub : Nat
  deriving DecidableEq, Repr

/-- The dsseDecoder of pkg/integrity/dsse.go: verifiers, acceptance threshold
and expected payload type. -/
structure DsseDecoder where
  vs : List SigVerifier
  threshold : Nat
  payloadType : String
  deriving DecidableEq, Repr

/-- newDSSEDecoder from pkg/integrity/dsse.go: threshold 1 and the fixed
metadata media type. -/
def newDSSEDecoder (vs : List SigVerifier) : DsseDecoder :=
  { vs := vs, threshold := 1, payloadType := metadataMediaType }

/-- The verify result populated by verifyMessage: the accepted public keys. -/
structure VerifyResult where
  aks : List Nat
  deriving DecidableEq, Repr

/-- Errors of dsseDecoder.verifyMessage. multiVerifierSetup models the failure
of dsse.NewMultiEnvelopeVerifier when the threshold is out of range;
verifyEnvelopeFailed mirrors errDSSEVerifyEnvelopeFailed;
unexpectedPayloadType mirrors errDSSEUnexpectedPayloadType. -/
inductive DsseVerifyError where
  | multiVerifierSetup
  | verifyEnvelopeFailed
  | unexpectedPayloadType
  deriving DecidableEq, Repr

/-- verifyMessage from pkg/integrity/dsse.go. The parameter envVerify
abstracts the third-party dsse multi envelope verifier built from the decoder
verifiers: it yields the accepted public keys, or none when fewer than
threshold signatures verify. Setup of the multi verifier fails when the
threshold is not between 1 and the number of verifiers. As in the source, the
accepted keys are assigned to the verify result by the same statement that
checks the envelope signatures, before the payload type is compared, and the
payload bytes are returned only when the payload type matches. -/
def verifyMessage (de : DsseDecoder) (envVerify : Envelope → Option (List Nat))
    (e : Envelope) (vr : VerifyResult) :
    Except DsseVerifyError (List Nat) × VerifyResult :=
  if de.threshold = 0 ∨ de.vs.length < de.threshold then
    (Except.error DsseVerifyError.multiVerifierSetup, vr)
  else
    match envVerify e with
    | none => (Except.error DsseVerifyError.verifyEnvelopeFailed, { vr with aks := [] })
    | some ks =>
        if e.payloadType ≠ de.payloadType then
          (Except.error DsseVerifyError.unexpectedPayloadType, { vr with aks := ks })
        else
          (Except.ok e.payload, { vr with aks := ks })

lemma encoderHashLoop_ok_of_all (h : CryptoHash) (l : List SigSigner)
    (hall : ∀ s ∈ l, (newDSSESigner s).h = h) :
    encoderHashLoop h l = Except.ok h := by
  induction l with
  | nil => rfl
  | cons s rest ih =>
      have hs : (newDSSESigner s).h = h := hall s (List.mem_cons_self s rest)
      simp only [encoderHashLoop, hs, if_pos]
      exact ih fun t ht => hall t (List.mem_cons_of_mem s ht)

lemma encoderHashLoop_error_of_mismatch (h : CryptoHash) (l : List SigSigner)
    (hex : ∃ s ∈ l, (newDSSESigner s).h ≠ h) :
    encoderHashLoop h l = Except.error DsseEncodeError.multipleHashes := by
  induction l with
  | nil => exact absurd hex (by simp)
  | cons s rest ih =>
      by_cases hs : (newDSSESigner s).h = h
      · simp only [encoderHashLoop, hs, if_pos]
        apply ih
        rcases hex with ⟨t, ht, hne⟩
        rcases List.mem_cons.mp ht with h1 | h2
        · exact absurd (h1 ▸ hs) hne
        · exact ⟨t, h2, hne⟩
      · simp only [encoderHashLoop, hs, if_false]

/-- C1: for every DSSE envelope whose payloadType is not exactly the SIF
metadata media type, dsseDecoder.verifyMessage returns the unexpected payload
type error and no message bytes, even when the envelope signatures verify at
the configured threshold. -/
theorem verifyMessage_rejects_unexpected_payload_type
    (vs : List SigVerifier) (envVerify : Envelope → Option (List Nat))
    (e : Envelope) (vr : VerifyResult) (ks : List Nat)
    (hvs : vs ≠ [])
    (hvalid : envVerify e = some ks)
    (hpt : e.payloadType ≠ metadataMediaType) :
    (verifyMessage (newDSSEDecoder vs) envVerify e vr).1 =
      Except.error DsseVerifyError.unexpectedPayloadType := by
  have hlen : 0 < vs.length := List.length_pos.mpr hvs
  have hcond : ¬ ((newDSSEDecoder vs).threshold = 0 ∨
      (newDSSEDecoder vs).vs.length < (newDSSEDecoder vs).threshold) := by
    simp only [newDSSEDecoder]
    push_neg
    exact ⟨one_ne_zero, hlen⟩
  simp only [verifyMessage, if_neg hcond, hvalid]
  have hpt' : e.payloadType ≠ (newDSSEDecoder vs).payloadType := hpt
  simp [hpt']

/-- Witness for C1 at a concrete envelope with corrupted payload type. -/
theorem verifyMessage_rejects_unexpected_payload_type_witness :
    (verifyMessage (newDSSEDecoder [{ pub := 1 }]) (fun _ => some [1])
      { payloadType := "bad", payload := [7], signatures := [] } { aks := [] }).1 =
      Except.error DsseVerifyError.unexpectedPayloadType :=
  verifyMessage_rejects_unexpected_payload_type [{ pub := 1 }] (fun _ => some [1])
    { payloadType := "bad", payload := [7], signatures := [] } { aks := [] } [1]
    (by decide) rfl (by decide)

/-- C9: envelope signatures are verified before the payload type is checked,
so on an envelope with valid signatures but a wrong payload type the decoder
stores the accepted public keys in the caller verify result and then fails:
the caller observes non-empty accepted keys together with the unexpected
payload type error. -/
theorem verifyMessage_stores_keys_before_payload_type_check
    (vs : List SigVerifier) (envVerify : Envelope → Option (List Nat))
    (e : Envelope) (vr : VerifyResult) (ks : List Nat)
    (hvs : vs ≠ [])
    (hvalid : envVerify e = some ks)
    (hthr : (newDSSEDecoder vs).threshold ≤ ks.length)
    (hpt : e.payloadType ≠ metadataMediaType) :
    (verifyMessage (newDSSEDecoder vs) envVerify e vr).1 =
      Except.error DsseVerifyError.unexpectedPayloadType ∧
    (verifyMessage (newDSSEDecoder vs) envVerify e vr).2.aks = ks ∧
    (verifyMessage (newDSSEDecoder vs) envVerify e vr).2.aks ≠ [] := by
  have hlen : 0 < vs.length := List.length_pos.mpr hvs
  have hcond : ¬ ((newDSSEDecoder vs).threshold = 0 ∨
      (newDSSEDecoder vs).vs.length < (newDSSEDecoder vs).threshold) := by
    simp only [newDSSEDecoder]
    push_neg
    exact ⟨one_ne_zero, hlen⟩
  have hksne : ks ≠ [] := by
    intro hnil
    rw [hnil] at hthr
    simp only [newDSSEDecoder, List.length_nil] at hthr
    omega
  have hpt' : e.payloadType ≠ (newDSSEDecoder vs).payloadType := hpt
  refine ⟨?_, ?_, ?_⟩ <;>
    simp [verifyMessage, if_neg hcond, hvalid, hpt', hksne]

/-- Witness for C9 at a concrete envelope: valid signatures, wrong payload
type, one accepted key recorded. -/
theorem verifyMessage_stores_keys_before_payload_type_check_witness :
    (verifyMessage (newDSSEDecoder [{ pub := 2 }]) (fun _ => some [2])
      { payloadType := "bad", payload := [7], signatures := [] } { aks := [] }).1 =
      Except.error DsseVerifyError.unexpectedPayloadType ∧
    (verifyMessage (newDSSEDecoder [{ pub := 2 }]) (fun _ => some [2])
      { payloadType := "bad", payload := [7], signatures := [] } { aks := [] }).2.aks = [2] ∧
    (verifyMessage (newDSSEDecoder [{ pub := 2 }]) (fun _ => some [2])
      { payloadType := "bad", payload := [7], signatures := [] } { aks := [] }).2.aks ≠ [] :=
  verifyMessage_stores_keys_before_payload_type_check [{ pub := 2 }] (fun _ => some [2])
    { payloadType := "bad", payload := [7], signatures := [] } { aks := [] } [2]
    (by decide) rfl (by decide) (by decide)

/-- C2: newDSSEEncoder fails with the multiple hash algorithms error whenever
two signers advertise different hash functions, and when all signers agree on
one hash function construction succeeds with that hash, which signMessage then
returns. -/
theorem newDSSEEncoder_hash_agreement
    (ss : List SigSigner) (hne : ss ≠ []) :
    ((∃ s ∈ ss, ∃ t ∈ ss, (newDSSESigner s).h ≠ (newDSSESigner t).h) →
        newDSSEEncoder ss = Except.error DsseEncodeError.multipleHashes) ∧
    (∀ h : CryptoHash, (∀ s ∈ ss, (newDSSESigner s).h = h) →
        ∃ en, newDSSEEncoder ss = Except.ok en ∧ en.h = h ∧
          ∀ body sigs, (signMessage en body sigs).1 = h) := by
  rcases ss with _ | ⟨s0, rest⟩
  · exact absurd rfl hne
  constructor
  · rintro ⟨s, hs, t, ht, hst⟩
    have hex : ∃ u ∈ rest, (newDSSESigner u).h ≠ (newDSSESigner s0).h := by
      by_contra hcon
      push_neg at hcon
      have hall : ∀ u ∈ s0 :: rest, (newDSSESigner u).h = (newDSSESigner s0).h := by
        intro u hu
        rcases List.mem_cons.mp hu with h1 | h2
        · rw [h1]
        · exact hcon u h2
      exact hst ((hall s hs).trans (hall t ht).symm)
    simp only [newDSSEEncoder, encoderHashLoop_error_of_mismatch _ _ hex]
  · intro h hall
    have h0 : (newDSSESigner s0).h = h := hall s0 (List.mem_cons_self s0 rest)
    have hloop : encoderHashLoop (newDSSESigner s0).h rest = Except.ok h := by
      rw [h0]
      exact encoderHashLoop_ok_of_all h rest fun t ht => hall t (List.mem_cons_of_mem s0 ht)
    refine ⟨{ h := h, payloadType := metadataMediaType }, ?_, rfl, fun _ _ => rfl⟩
    simp only [newDSSEEncoder, hloop]

/-- Witness for C2: mismatched SHA-256 and SHA-384 signers fail construction,
while two SHA-256 signers succeed and sign with SHA-256. -/
theorem newDSSEEncoder_hash_agreement_witness :
    newDSSEEncoder [{ signerOpts := some CryptoHash.sha256 },
        { signerOpts := some CryptoHash.sha384 }] =
      Except.error DsseEncodeError.multipleHashes ∧
    ∃ en, newDSSEEncoder [{ signerOpts := some CryptoHash.sha256 },
        { signerOpts := some CryptoHash.sha256 }] = Except.ok en ∧
      en.h = CryptoHash.sha256 ∧
      ∀ body sigs, (signMessage en body sigs).1 = CryptoHash.sha256 := by
  constructor
  · exact (newDSSEEncoder_hash_agreement
      [{ signerOpts := some CryptoHash.sha256 }, { signerOpts := some CryptoHash.sha384 }]
      (by decide)).1 (by decide)
  · exact (newDSSEEncoder_hash_agreement
      [{ signerOpts := some CryptoHash.sha256 }, { signerOpts := some CryptoHash.sha256 }]
      (by decide)).2 CryptoHash.sha256 (by decide)

/-- C10: a signer that does not implement crypto.SignerOpts defaults to
SHA-256 in newDSSESigner; it composes into one envelope with a signer
advertising SHA-256, and triggers the multiple hash error when combined with a
signer advertising any other hash. -/
theorem newDSSESigner_defaults_to_sha256
    (s : SigSigner) (hs : s.signerOpts = none) :
    (newDSSESigner s).h = CryptoHash.sha256 ∧
    (∀ t : SigSigner, t.signerOpts = some CryptoHash.sha256 →
      newDSSEEncoder [s, t] =
        Except.ok { h := CryptoHash.sha256, payloadType := metadataMediaType }) ∧
    (∀ (t : SigSigner) (h : CryptoHash), t.signerOpts = some h →
      h ≠ CryptoHash.sha256 →
      newDSSEEncoder [s, t] = Except.error DsseEncodeError.multipleHashes) := by
  have hsh : (newDSSESigner s).h = CryptoHash.sha256 := by
    simp [newDSSESigner, hs]
  refine ⟨hsh, ?_, ?_⟩
  · intro t ht
    have hth : (newDSSESigner t).h = CryptoHash.sha256 := by
      simp [newDSSESigner, ht]
    simp [newDSSEEncoder, encoderHashLoop, hsh, hth]
  · intro t h ht hne
    have hth : (newDSSESigner t).h = h := by
      simp [newDSSESigner, ht]
    simp [newDSSEEncoder, encoderHashLoop, hsh, hth, hne]

/-- Witness for C10: a signer without crypto.SignerOpts paired with an
explicit SHA-256 signer succeeds, and paired with a SHA-384 signer fails. -/
theorem newDSSESigner_defaults_to_sha256_witness :
    (newDSSESigner { signerOpts := none }).h = CryptoHash.sha256 ∧
    newDSSEEncoder [{ signerOpts := none }, { signerOpts := some CryptoHash.sha256 }] =
      Except.ok { h := CryptoHash.sha256, payloadType := metadataMediaType } ∧
    newDSSEEncoder [{ signerOpts := none }, { signerOpts := some CryptoHash.sha384 }] =
      Except.error DsseEncodeError.multipleHashes := by
  obtain ⟨h1, h2, h3⟩ := newDSSESigner_defaults_to_sha256 { signerOpts := none } rfl
  exact ⟨h1, h2 { signerOpts := some CryptoHash.sha256 } rfl,
    h3 { signerOpts := some CryptoHash.sha384 } CryptoHash.sha384 rfl (by decide)⟩

/-- A descriptor slot of the descriptor table, reduced to the fields that
GetFromDescrID inspects: the used flag and the object id. -/
structure DescrV1 where
  Used : Bool
  ID : Nat
  deriving DecidableEq, Repr

/-- A loaded container image, reduced to its descriptor table DescrArr. -/
structure FileImageV1 where
  DescrArr : List DescrV1
  deriving DecidableEq, Repr

/-- Lookup errors of the fgetters: ErrNotFound and ErrMultValues. -/
inductive FgetError where
  | notFound
  | multValues
  deriving DecidableEq, Repr

/-- The loop condition of GetFromDescrID: the slot is used and carries the
searched id. -/
def descrMatchesID (id : Nat) (v : DescrV1) : Bool :=
  v.Used && v.ID == id

/-- The loop of GetFromDescrID: iterate over the slots with index i, skipping
unused slots; remember the first matching index in acc; a second match returns
ErrMultValues immediately. -/
def gfdiLoop (id : Nat) : List DescrV1 → Nat → Option Nat → Except FgetError Nat
  | [], _, none => Except.error FgetError.notFound
  | [], _, some m => Except.ok m
  | v :: rest, i, acc =>
      if descrMatchesID id v then
        match acc with
        | some _ => Except.error FgetError.multValues
        | none => gfdiLoop id rest (i + 1) (some i)
      else gfdiLoop id rest (i + 1) acc

/-- GetFromDescrID from the pkg/sif fgetters: returns the index of the unique
used descriptor with the given id, or an error. -/
def GetFromDescrID (f : FileImageV1) (id : Nat) : Except FgetError Nat :=
  gfdiLoop id f.DescrArr 0 none

/-- Number of used descriptor slots carrying the searched id. -/
def matchCount (id : Nat) (l : List DescrV1) : Nat :=
  l.countP (descrMatchesID id)

/-- Index of the first used descriptor slot carrying the searched id. -/
def firstMatchIdx (id : Nat) : List DescrV1 → Option Nat
  | [] => none
  | v :: rest =>
      if descrMatchesID id v then some 0
      else (firstMatchIdx id rest).map (· + 1)

lemma matchCount_cons (id : Nat) (v : DescrV1) (rest : List DescrV1) :
    matchCount id (v :: rest) =
      (if descrMatchesID id v then 1 else 0) + matchCount id rest := by
  simp only [matchCount, List.countP_cons]
  by_cases h : descrMatchesID id v
  · simp [h]
    omega
  · simp [h]

lemma gfdiLoop_some (id : Nat) (l : List DescrV1) (i m : Nat) :
    gfdiLoop id l i (some m) =
      if matchCount id l = 0 then Except.ok m
      else Except.error FgetError.multValues := by
  induction l generalizing i with
  | nil => simp [gfdiLoop, matchCount]
  | cons v rest ih =>
      by_cases h : descrMatchesID id v
      · simp [gfdiLoop, h, matchCount_cons]
      · simp only [gfdiLoop, h, if_false, ih, matchCount_cons]
        simp [h]

lemma gfdiLoop_none (id : Nat) (l : List DescrV1) (i : Nat) :
    gfdiLoop id l i none =
      match firstMatchIdx id l with
      | none => Except.error FgetError.notFound
      | some j =>
          if matchCount id (l.drop (j + 1)) = 0 then Except.ok (i + j)
          else Except.error FgetError.multValues := by
  induction l generalizing i with
  | nil => simp [gfdiLoop, firstMatchIdx]
  | cons v rest ih =>
      by_cases h : descrMatchesID id v
      · simp only [gfdiLoop, h, if_true, firstMatchIdx, gfdiLoop_some]
        simp
      · simp only [gfdiLoop, h, if_false, ih, firstMatchIdx]
        cases hfm : firstMatchIdx id rest with
        | none => simp
        | some j =>
            simp only [Option.map_some]
            have hdrop : (v :: rest).drop (j + 1 + 1) = rest.drop (j + 1) := rfl
            have hadd : i + 1 + j = i + (j + 1) := by omega
            simp [hdrop, hadd]

lemma firstMatchIdx_none_iff (id : Nat) (l : List DescrV1) :
    firstMatchIdx id l = none ↔ matchCount id l = 0 := by
  induction l with
  | nil => simp [firstMatchIdx, matchCount]
  | cons v rest ih =>
      by_cases h : descrMatchesID id v
      · simp [firstMatchIdx, h, matchCount_cons]
      · simp [firstMatchIdx, h, matchCount_cons, ih]

lemma firstMatchIdx_count (id : Nat) (l : List DescrV1) (j : Nat)
    (hj : firstMatchIdx id l = some j) :
    matchCount id l = 1 + matchCount id (l.drop (j + 1)) := by
  induction l generalizing j with
  | nil => simp [firstMatchIdx] at hj
  | cons v rest ih =>
      by_cases h : descrMatchesID id v
      · simp only [firstMatchIdx, h, if_true, Option.some.injEq] at hj
        subst hj
        simp [matchCount_cons, h]
      · simp only [firstMatchIdx, h, if_false] at hj
        cases hfm : firstMatchIdx id rest with
        | none => simp [hfm] at hj
        | some j' =>
            rw [hfm] at hj
            simp at hj
            subst hj
            have hdrop : (v :: rest).drop (j' + 1 + 1) = rest.drop (j' + 1) := rfl
            rw [matchCount_cons, if_neg h, hdrop, ih j' hfm]
            omega

lemma firstMatchIdx_spec (id : Nat) (l : List DescrV1) (j : Nat)
    (hj : firstMatchIdx id l = some j) :
    ∃ h : j < l.length, descrMatchesID id (l.get ⟨j, h⟩) = true := by
  induction l generalizing j with
  | nil => simp [firstMatchIdx] at hj
  | cons v rest ih =>
      by_cases h : descrMatchesID id v
      · simp only [firstMatchIdx, h, if_true, Option.some.injEq] at hj
        subst hj
        exact ⟨by simp, h⟩
      · simp only [firstMatchIdx, h, if_false] at hj
        cases hfm : firstMatchIdx id rest with
        | none => simp [hfm] at hj
        | some j' =>
            rw [hfm] at hj
            simp at hj
            subst hj
            obtain ⟨hlt, hmatch⟩ := ih j' hfm
            exact ⟨by simpa using Nat.succ_lt_succ hlt, hmatch⟩

/-- C8: single-descriptor lookup by id returns the unique used matching
descriptor, fails with ErrNotFound when no used descriptor matches, fails
with ErrMultValues when more than one used descriptor matches, and any
returned slot is a used slot carrying the searched id (unused slots are never
considered). -/
theorem GetFromDescrID_classifies (f : FileImageV1) (id : Nat) :
    (matchCount id f.DescrArr = 0 →
      GetFromDescrID f id = Except.error FgetError.notFound) ∧
    (2 ≤ matchCount id f.DescrArr →
      GetFromDescrID f id = Except.error FgetError.multValues) ∧
    (matchCount id f.DescrArr = 1 →
      ∃ j, GetFromDescrID f id = Except.ok j) ∧
    (∀ j, GetFromDescrID f id = Except.ok j →
      matchCount id f.DescrArr = 1 ∧
      ∃ h : j < f.DescrArr.length,
        (f.DescrArr.get ⟨j, h⟩).Used = true ∧ (f.DescrArr.get ⟨j, h⟩).ID = id) := by
  have hmain : GetFromDescrID f id = gfdiLoop id f.DescrArr 0 none := rfl
  rw [hmain, gfdiLoop_none]
  refine ⟨?_, ?_, ?_, ?_⟩
  · intro h0
    rw [(firstMatchIdx_none_iff id f.DescrArr).mpr h0]
  · intro h2
    cases hfm : firstMatchIdx id f.DescrArr with
    | none =>
        rw [(firstMatchIdx_none_iff id f.DescrArr).mp hfm] at h2
        omega
    | some j =>
        have hc := firstMatchIdx_count id f.DescrArr j hfm
        have hne : matchCount id (f.DescrArr.drop (j + 1)) ≠ 0 := by omega
        simp [hne]
  · intro h1
    cases hfm : firstMatchIdx id f.DescrArr with
    | none =>
        rw [(firstMatchIdx_none_iff id f.DescrArr).mp hfm] at h1
        omega
    | some j =>
        have hc := firstMatchIdx_count id f.DescrArr j hfm
        have hz : matchCount id (f.DescrArr.drop (j + 1)) = 0 := by omega
        exact ⟨j, by simp [hz]⟩
  · intro j hok
    cases hfm : firstMatchIdx id f.DescrArr with
    | none => rw [hfm] at hok; simp at hok
    | some j' =>
        rw [hfm] at hok
        have hc := firstMatchIdx_count id f.DescrArr j' hfm
        by_cases hz : matchCount id (f.DescrArr.drop (j' + 1)) = 0
        · simp only [hz, if_true, Nat.zero_add] at hok
          have hjj : j' = j := by simpa using hok
          subst hjj
          obtain ⟨hlt, hmatch⟩ := firstMatchIdx_spec id f.DescrArr j' hfm
          simp only [descrMatchesID, Bool.and_eq_true, beq_iff_eq] at hmatch
          exact ⟨by omega, hlt, hmatch.1, hmatch.2⟩
        · simp [hz] at hok

/-- Witness for C8 on concrete descriptor tables: a unique used match is
returned by index, a missing id yields ErrNotFound, a duplicated id yields
ErrMultValues, and the unused slot with the searched id is skipped. -/
theorem GetFromDescrID_classifies_witness :
    (∃ j, GetFromDescrID
        { DescrArr := [{ Used := true, ID := 1 }, { Used := false, ID := 2 },
          { Used := true, ID := 2 }] } 2 = Except.ok j) ∧
    GetFromDescrID
        { DescrArr := [{ Used := true, ID := 1 }, { Used := false, ID := 2 },
          { Used := true, ID := 2 }] } 5 = Except.error FgetError.notFound ∧
    GetFromDescrID
        { DescrArr := [{ Used := true, ID := 2 }, { Used := true, ID := 2 }] } 2 =
      Except.error FgetError.multValues := by
  refine ⟨?_, ?_, ?_⟩
  · exact (GetFromDescrID_classifies
      { DescrArr := [{ Used := true, ID := 1 }, { Used := false, ID := 2 },
        { Used := true, ID := 2 }] } 2).2.2.1 (by decide)
  · exact (GetFromDescrID_classifies
      { DescrArr := [{ Used := true, ID := 1 }, { Used := false, ID := 2 },
        { Used := true, ID := 2 }] } 5).1 (by decide)
  · exact (GetFromDescrID_classifies
      { DescrArr := [{ Used := true, ID := 2 }, { Used := true, ID := 2 }] } 2).2.1
      (by decide)

/-- An object held in the container data area: id, offset and store length
within the data area, and payload bytes. The store length equals the payload
length (no trailing padding is modelled). -/
structure SifObject where
  id : Nat
  fileOff : Nat
  storeLen : Nat
  payload : List Nat
  deriving DecidableEq, Repr

/-- Modelled from the spec: the container state kept by the pkg/sif mutation
operations (pkg/sif add.go, delete.go and create.go are not under src). objs
mirrors the used descriptor slots with their payloads, maxID is the highest
object id ever assigned, dataUsed the used-byte count of the data area. -/
structure SifState where
  objs : List SifObject
  maxID : Nat
  dataUsed : Nat
  deriving DecidableEq, Repr

/-- Modelled from the spec: FileImage.AddObject (pkg/sif/add.go is not under
src). The new object receives id max_existing_id + 1, monotonic, never
reusing a freed id; its payload is appended at the end of the data area. -/
def addObject (s : SifState) (payload : List Nat) : SifState :=
  let o : SifObject :=
    { id := s.maxID + 1, fileOff := s.dataUsed,
      storeLen := payload.length, payload := payload }
  { objs := s.objs ++ [o],
    maxID := s.maxID + 1,
    dataUsed := s.dataUsed + payload.length }

/-- Mutation errors: ObjectNotFound. -/
inductive MutErr where
  | objectNotFound
  deriving DecidableEq, Repr

/-- Modelled from the spec: FileImage.DeleteObject (pkg/sif/delete.go is not
under src). The descriptor with the given id is freed, with ObjectNotFound
when absent; under the Compact option, when the object occupies the trailing
region of the data area the used-byte count shrinks by its store length,
otherwise a hole is left. -/
def deleteObject (s : SifState) (id : Nat) (compact : Bool) :
    Except MutErr SifState :=
  match s.objs.find? (fun o => o.id == id) with
  | none => Except.error MutErr.objectNotFound
  | some o =>
      Except.ok
        { objs := s.objs.filter (fun p => !(p.id == id)),
          maxID := s.maxID,
          dataUsed :=
            if compact && (o.fileOff + o.storeLen == s.dataUsed) then
              s.dataUsed - o.storeLen
            else s.dataUsed }

/-- The empty container produced by CreateContainer without descriptors. -/
def emptyContainer : SifState := { objs := [], maxID := 0, dataUsed := 0 }

/-- Modelled from the spec: CreateContainer with initial descriptors appends
each input in order. -/
def createContainer (payloads : List (List Nat)) : SifState :=
  payloads.foldl addObject emptyContainer

/-- One mutation step: add an object, or delete one by id (with or without
compaction). -/
inductive Mutation where
  | add (payload : List Nat)
  | del (id : Nat) (compact : Bool)
  deriving DecidableEq, Repr

/-- Apply one mutation; a failing delete leaves the state unchanged. -/
def applyMutation (s : SifState) : Mutation → SifState
  | Mutation.add p => addObject s p
  | Mutation.del id c =>
      match deleteObject s id c with
      | Except.error _ => s
      | Except.ok s2 => s2

/-- The ids assigned by the add steps of a mutation sequence, in order. -/
def assignedIDs (s : SifState) : List Mutation → List Nat
  | [] => []
  | Mutation.add p :: ms => (s.maxID + 1) :: assignedIDs (addObject s p) ms
  | Mutation.del id c :: ms =>
      assignedIDs (applyMutation s (Mutation.del id c)) ms

lemma maxID_applyMutation (s : SifState) (m : Mutation) :
    s.maxID ≤ (applyMutation s m).maxID := by
  cases m with
  | add p => simp [applyMutation, addObject]
  | del id c =>
      simp only [applyMutation, deleteObject]
      cases s.objs.find? (fun o => o.id == id) <;> simp

lemma assignedIDs_gt_maxID (ms : List Mutation) (s : SifState) :
    ∀ k ∈ assignedIDs s ms, s.maxID < k := by
  induction ms generalizing s with
  | nil => simp [assignedIDs]
  | cons m rest ih =>
      cases m with
      | add p =>
          intro k hk
          rcases List.mem_cons.mp hk with h1 | h2
          · omega
          · have := ih (addObject s p) k h2
            simp only [addObject] at this
            omega
      | del id c =>
          intro k hk
          have := ih (applyMutation s (Mutation.del id c)) k hk
          have hle := maxID_applyMutation s (Mutation.del id c)
          omega

lemma assignedIDs_chain (ms : List Mutation) (s : SifState) :
    List.Chain' (· < ·) (assignedIDs s ms) := by
  induction ms generalizing s with
  | nil => simp [assignedIDs]
  | cons m rest ih =>
      cases m with
      | add p =>
          rw [assignedIDs, List.chain'_cons']
          refine ⟨?_, ih (addObject s p)⟩
          intro b hb
          have hmem : b ∈ assignedIDs (addObject s p) rest :=
            List.mem_of_mem_head? hb
          have := assignedIDs_gt_maxID rest (addObject s p) b hmem
          simp only [addObject] at this
          omega
      | del id c => exact ih (applyMutation s (Mutation.del id c))

/-- C3: the ids assigned by AddObject over any mutation sequence form a
strictly increasing sequence; every assigned id is fresh with respect to the
objects present initially; and on the concrete scenario of the spec, creating
a container with objects abc and def, deleting object 2 with compaction and
adding ghi leaves exactly objects 1 and 3 with payloads abc and ghi and a
data area of size len(abc) + len(ghi). -/
theorem addObject_monotonic_ids (s : SifState) (ms : List Mutation)
    (hinv : ∀ o ∈ s.objs, o.id ≤ s.maxID) :
    List.Chain' (· < ·) (assignedIDs s ms) ∧
    (∀ k ∈ assignedIDs s ms, ∀ o ∈ s.objs, o.id < k) ∧
    (∃ s1, deleteObject (createContainer [[97, 98, 99], [100, 101, 102]]) 2 true =
        Except.ok s1 ∧
      (addObject s1 [103, 104, 105]).objs.map (fun o => o.id) = [1, 3] ∧
      (addObject s1 [103, 104, 105]).objs.map (fun o => o.payload) =
        [[97, 98, 99], [103, 104, 105]] ∧
      (addObject s1 [103, 104, 105]).dataUsed = 3 + 3) := by
  refine ⟨assignedIDs_chain ms s, ?_, ?_⟩
  · intro k hk o ho
    have h1 := assignedIDs_gt_maxID ms s k hk
    have h2 := hinv o ho
    omega
  · refine ⟨⟨[⟨1, 0, 3, [97, 98, 99]⟩], 2, 3⟩, rfl, by decide, by decide, by decide⟩

/-- Witness for C3 on a concrete mutation sequence: add, delete with
compaction, add again; the assigned ids are strictly increasing and the
scenario equalities hold. -/
theorem addObject_monotonic_ids_witness :
    List.Chain' (· < ·) (assignedIDs emptyContainer
      [Mutation.add [97, 98, 99], Mutation.add [100, 101, 102],
       Mutation.del 2 true, Mutation.add [103, 104, 105]]) ∧
    (∀ k ∈ assignedIDs emptyContainer
      [Mutation.add [97, 98, 99], Mutation.add [100, 101, 102],
       Mutation.del 2 true, Mutation.add [103, 104, 105]],
      ∀ o ∈ emptyContainer.objs, o.id < k) ∧
    (∃ s1, deleteObject (createContainer [[97, 98, 99], [100, 101, 102]]) 2 true =
        Except.ok s1 ∧
      (addObject s1 [103, 104, 105]).objs.map (fun o => o.id) = [1, 3] ∧
      (addObject s1 [103, 104, 105]).objs.map (fun o => o.payload) =
        [[97, 98, 99], [103, 104, 105]] ∧
      (addObject s1 [103, 104, 105]).dataUsed = 3 + 3) :=
  addObject_monotonic_ids emptyContainer
    [Mutation.add [97, 98, 99], Mutation.add [100, 101, 102],
     Mutation.del 2 true, Mutation.add [103, 104, 105]]
    (by intro o ho; simp [emptyContainer] at ho)

/-- Partition types of the partition descriptor extra buffer. -/
inductive Parttype where
  | system
  | primSys
  | dataPart
  | overlay
  deriving DecidableEq, Repr

/-- A descriptor as relevant to SetPrimPart: used flag, object id, whether
the data type is Partition, the partition type and the architecture recorded
in the extra buffer. -/
structure DescrP where
  used : Bool
  id : Nat
  isPart : Bool
  ptype : Parttype
  arch : String
  deriving DecidableEq, Repr

/-- A loaded image as relevant to SetPrimPart: descriptor table and the header
architecture field. -/
structure FileImageP where
  descrs : List DescrP
  hdrArch : String
  deriving DecidableEq, Repr

/-- Errors of SetPrimPart: ObjectNotFound and UnexpectedDataType. -/
inductive SetErr where
  | objectNotFound
  | unexpectedDataType
  deriving DecidableEq, Repr

/-- A used partition descriptor of primary system type. -/
def isPrimSys (d : DescrP) : Bool :=
  d.used && d.isPart && (d.ptype == Parttype.primSys)

/-- Demotion of an existing primary system partition to a plain system
partition; any other descriptor is unchanged. -/
def demotePrim (d : DescrP) : DescrP :=
  if d.used && d.isPart && (d.ptype == Parttype.primSys) then
    { d with ptype := Parttype.system }
  else d

/-- Modelled from the spec: FileImage.SetPrimPart (pkg/sif/set.go is not
under src). Locate the used descriptor with the given id, failing with
ObjectNotFound when absent; the target must be a partition; any existing
primary system partition is demoted to system, the target is promoted to
primary system, and the header architecture is updated to the target
architecture. -/
def setPrimPart (f : FileImageP) (id : Nat) : Except SetErr FileImageP :=
  match f.descrs.find? (fun d => d.used && d.id == id) with
  | none => Except.error SetErr.objectNotFound
  | some d =>
      if d.isPart then
        Except.ok
          { descrs := (f.descrs.map demotePrim).set
              (f.descrs.findIdx (fun e => e.used && e.id == id))
              { d with ptype := Parttype.primSys },
            hdrArch := d.arch }
      else Except.error SetErr.unexpectedDataType

lemma isPrimSys_demotePrim (d : DescrP) : isPrimSys (demotePrim d) = false := by
  by_cases h : d.used && d.isPart && (d.ptype == Parttype.primSys)
  · simp [demotePrim, h, isPrimSys]
  · simp only [demotePrim, h, if_false]
    simpa [isPrimSys] using h

lemma countP_set_le_one {α : Type} (p : α → Bool) (l : List α) (j : Nat) (a : α)
    (h : l.countP p = 0) : (l.set j a).countP p ≤ 1 := by
  induction l generalizing j with
  | nil => simp [List.set]
  | cons x xs ih =>
      have hx : ¬ p x = true := by
        intro hpx
        rw [List.countP_cons, if_pos hpx] at h
        omega
      have hxs : xs.countP p = 0 := by
        rw [List.countP_cons, if_neg hx] at h
        omega
      cases j with
      | zero =>
          rw [List.set_cons_zero, List.countP_cons]
          have := List.countP_eq_zero.mp hxs
          by_cases hpa : p a <;> simp [hpa, hxs]
      | succ n =>
          rw [List.set_cons_succ, List.countP_cons, if_neg hx]
          simpa using ih n hxs

lemma map_eq_self_of_forall {α : Type} (f : α → α) (l : List α)
    (h : ∀ x ∈ l, f x = x) : l.map f = l := by
  induction l with
  | nil => rfl
  | cons x xs ih =>
      rw [List.map_cons, h x (List.mem_cons_self x xs),
        ih fun y hy => h y (List.mem_cons_of_mem x hy)]

/-- C6: SetPrimPart fails with ObjectNotFound when no used descriptor has the
given id; on success it promotes the target partition to primary system,
demotes every other primary system partition to system (so every remaining
primary carries the target id, and at most one used partition descriptor is
primary system), updates the header architecture to the target architecture,
and when no prior primary exists only the promotion is performed. -/
theorem setPrimPart_spec (f : FileImageP) (id : Nat) :
    ((∀ d ∈ f.descrs, ¬(d.used = true ∧ d.id = id)) →
      setPrimPart f id = Except.error SetErr.objectNotFound) ∧
    (∀ f2, setPrimPart f id = Except.ok f2 →
      f2.descrs.countP isPrimSys ≤ 1 ∧
      (∃ d, f.descrs.find? (fun e => e.used && e.id == id) = some d ∧
        d.isPart = true ∧ f2.hdrArch = d.arch ∧
        { d with ptype := Parttype.primSys } ∈ f2.descrs) ∧
      (∀ e ∈ f2.descrs, isPrimSys e = true → e.id = id) ∧
      ((∀ e ∈ f.descrs, isPrimSys e = false) →
        ∃ d, f.descrs.find? (fun e => e.used && e.id == id) = some d ∧
          f2.descrs = f.descrs.set (f.descrs.findIdx (fun e => e.used && e.id == id))
            { d with ptype := Parttype.primSys })) := by
  constructor
  · intro h
    have hnone : f.descrs.find? (fun d => d.used && d.id == id) = none := by
      rw [List.find?_eq_none]
      intro x hx
      have := h x hx
      simp only [Bool.and_eq_true, beq_iff_eq]
      tauto
    simp [setPrimPart, hnone]
  · intro f2 hok
    unfold setPrimPart at hok
    cases hfind : f.descrs.find? (fun d => d.used && d.id == id) with
    | none => rw [hfind] at hok; simp at hok
    | some d =>
        rw [hfind] at hok
        by_cases hp : d.isPart
        · simp only [hp, if_true] at hok
          have hf2 := (Except.ok.injEq _ _).mp hok
          have hfind2 : List.find? (fun e : DescrP => e.used && e.id == id) f.descrs =
              some d := hfind
          have hpx : (d.used && d.id == id) = true := by
            simpa using List.find?_some hfind2
          have hid : d.id = id := by
            simp only [Bool.and_eq_true, beq_iff_eq] at hpx
            exact hpx.2
          have hexists : ∃ x ∈ f.descrs, (fun e : DescrP => e.used && e.id == id) x = true :=
            ⟨d, List.mem_of_find?_eq_some hfind2, hpx⟩
          have hjlt : f.descrs.findIdx (fun e => e.used && e.id == id) < f.descrs.length :=
            List.findIdx_lt_length_of_exists hexists
          have hmapcount : (f.descrs.map demotePrim).countP isPrimSys = 0 := by
            rw [List.countP_eq_zero]
            intro a ha
            obtain ⟨x, _, hxa⟩ := List.mem_map.mp ha
            rw [← hxa]
            simp [isPrimSys_demotePrim]
          refine ⟨?_, ?_, ?_, ?_⟩
          · rw [← hf2]
            exact countP_set_le_one isPrimSys _ _ _ hmapcount
          · refine ⟨d, rfl, hp, by rw [← hf2], ?_⟩
            rw [hp, ← hf2]
            exact List.mem_set (f.descrs.map demotePrim) _
              (by rw [List.length_map]; exact hjlt) _
          · intro e he hprim
            rw [← hf2] at he
            rcases List.mem_or_eq_of_mem_set he with hmem | heq
            · obtain ⟨x, _, hxa⟩ := List.mem_map.mp hmem
              rw [← hxa] at hprim
              rw [isPrimSys_demotePrim] at hprim
              exact absurd hprim (by simp)
            · rw [heq]
              exact hid
          · intro hnoprim
            refine ⟨d, rfl, ?_⟩
            have hmapid : f.descrs.map demotePrim = f.descrs :=
              map_eq_self_of_forall demotePrim f.descrs fun x hx => by
                have hx2 := hnoprim x hx
                simp only [isPrimSys] at hx2
                simp [demotePrim, hx2]
            rw [hp, ← hf2, hmapid]
        · simp [hp] at hok

/-- Witness for C6 on a concrete image: promoting partition 2 demotes the
prior primary, leaves at most one primary, and retargets the header
architecture; an absent id fails with ObjectNotFound. -/
theorem setPrimPart_spec_witness :
    setPrimPart ⟨[⟨true, 1, true, Parttype.primSys, "386"⟩,
        ⟨true, 2, true, Parttype.system, "amd64"⟩], "386"⟩ 9 =
      Except.error SetErr.objectNotFound ∧
    (∀ f2, setPrimPart ⟨[⟨true, 1, true, Parttype.primSys, "386"⟩,
        ⟨true, 2, true, Parttype.system, "amd64"⟩], "386"⟩ 2 = Except.ok f2 →
      f2.descrs.countP isPrimSys ≤ 1 ∧
      (∃ d, ([⟨true, 1, true, Parttype.primSys, "386"⟩,
          ⟨true, 2, true, Parttype.system, "amd64"⟩] :
          List DescrP).find? (fun e => e.used && e.id == 2) = some d ∧
        d.isPart = true ∧ f2.hdrArch = d.arch ∧
        { d with ptype := Parttype.primSys } ∈ f2.descrs) ∧
      (∀ e ∈ f2.descrs, isPrimSys e = true → e.id = 2) ∧
      ((∀ e ∈ ([⟨true, 1, true, Parttype.primSys, "386"⟩,
          ⟨true, 2, true, Parttype.system, "amd64"⟩] : List DescrP),
          isPrimSys e = false) →
        ∃ d, ([⟨true, 1, true, Parttype.primSys, "386"⟩,
            ⟨true, 2, true, Parttype.system, "amd64"⟩] :
            List DescrP).find? (fun e => e.used && e.id == 2) = some d ∧
          f2.descrs = ([⟨true, 1, true, Parttype.primSys, "386"⟩,
              ⟨true, 2, true, Parttype.system, "amd64"⟩] : List DescrP).set
            (([⟨true, 1, true, Parttype.primSys, "386"⟩,
              ⟨true, 2, true, Parttype.system, "amd64"⟩] :
              List DescrP).findIdx (fun e => e.used && e.id == 2))
            { d with ptype := Parttype.primSys })) := by
  constructor
  · exact (setPrimPart_spec ⟨[⟨true, 1, true, Parttype.primSys, "386"⟩,
      ⟨true, 2, true, Parttype.system, "amd64"⟩], "386"⟩ 9).1 (by decide)
  · exact (setPrimPart_spec ⟨[⟨true, 1, true, Parttype.primSys, "386"⟩,
      ⟨true, 2, true, Parttype.system, "amd64"⟩], "386"⟩ 2).2

/-- Error of the group signature coverage check: signed object not found. -/
inductive CoverageErr where
  | signedObjectNotFound
  deriving DecidableEq, Repr

/-- Modelled from the spec: the set-inclusion check of
groupVerifier.verifySignature (pkg/integrity/verify.go is not under src).
covered is the set of object ids listed in the verified signature message and
requested the ids of the group objects the caller asked to verify; when
subsetOK is set the covered set must be a superset of the requested set,
otherwise the check is exact and the two sets must coincide. On success the
verified descriptors reported are exactly the requested ones. -/
def checkCoverage (covered requested : List Nat) (subsetOK : Bool) :
    Except CoverageErr (List Nat) :=
  if subsetOK then
    if requested.all (fun r => covered.contains r) then Except.ok requested
    else Except.error CoverageErr.signedObjectNotFound
  else
    if requested.all (fun r => covered.contains r) &&
        covered.all (fun c => requested.contains c) then Except.ok requested
    else Except.error CoverageErr.signedObjectNotFound

lemma all_contains_iff (l1 l2 : List Nat) :
    (l1.all (fun r => l2.contains r) = true) ↔ ∀ r ∈ l1, r ∈ l2 := by
  simp [List.all_eq_true, List.contains_iff_exists_mem_beq, beq_iff_eq]

/-- C4: with subsetOK set, the group coverage check succeeds exactly when the
signed set is a superset of the requested set and reports exactly the
requested descriptors; without subsetOK the check is exact, so a request for
a proper subset of the covered set fails with signed object not found. -/
theorem checkCoverage_subset_spec (covered requested : List Nat) :
    ((∃ v, checkCoverage covered requested true = Except.ok v) ↔
      ∀ r ∈ requested, r ∈ covered) ∧
    (∀ v, checkCoverage covered requested true = Except.ok v → v = requested) ∧
    ((∀ r ∈ requested, r ∈ covered) → (∃ c ∈ covered, c ∉ requested) →
      checkCoverage covered requested false =
        Except.error CoverageErr.signedObjectNotFound) := by
  have htrue : checkCoverage covered requested true =
      if requested.all (fun r => covered.contains r) then Except.ok requested
      else Except.error CoverageErr.signedObjectNotFound := rfl
  have hfalse : checkCoverage covered requested false =
      if requested.all (fun r => covered.contains r) &&
          covered.all (fun c => requested.contains c) then Except.ok requested
      else Except.error CoverageErr.signedObjectNotFound := rfl
  refine ⟨?_, ?_, ?_⟩
  · constructor
    · rintro ⟨v, hv⟩
      by_cases hall : requested.all (fun r => covered.contains r)
      · exact (all_contains_iff requested covered).mp hall
      · rw [htrue, if_neg hall] at hv
        exact absurd hv (by simp)
    · intro hsub
      have hall := (all_contains_iff requested covered).mpr hsub
      exact ⟨requested, by rw [htrue, if_pos hall]⟩
  · intro v hv
    by_cases hall : requested.all (fun r => covered.contains r)
    · rw [htrue, if_pos hall] at hv
      simpa using hv.symm
    · rw [htrue, if_neg hall] at hv
      exact absurd hv (by simp)
  · intro hsub hproper
    have hall := (all_contains_iff requested covered).mpr hsub
    have hnall : covered.all (fun c => requested.contains c) = false := by
      rcases hproper with ⟨c, hc, hcn⟩
      by_cases h : covered.all (fun c => requested.contains c)
      · exact absurd ((all_contains_iff covered requested).mp h c hc) hcn
      · simpa using h
    have hcond : (requested.all (fun r => covered.contains r) &&
        covered.all (fun c => requested.contains c)) = false := by
      rw [hall, hnall]
      rfl
    rw [hfalse, if_neg (by rw [hcond]; exact Bool.false_ne_true)]

/-- Witness for C4 at covered set 1 2 and requested set 1: the subset check
succeeds with exactly the requested descriptor, and the exact check fails. -/
theorem checkCoverage_subset_spec_witness :
    (∃ v, checkCoverage [1, 2] [1] true = Except.ok v) ∧
    (∀ v, checkCoverage [1, 2] [1] true = Except.ok v → v = [1]) ∧
    checkCoverage [1, 2] [1] false = Except.error CoverageErr.signedObjectNotFound := by
  obtain ⟨h1, h2, h3⟩ := checkCoverage_subset_spec [1, 2] [1]
  exact ⟨h1.mpr (by decide), h2, h3 (by decide) ⟨2, by decide, by decide⟩⟩

/-- A signing entity fingerprint (20 bytes in the source, abstracted as a
byte list). -/
abbrev Fingerprint := List Nat

/-- Insert a fingerprint unless already present, preserving first-appearance
order. -/
def insertFP (acc : List Fingerprint) (fp : Fingerprint) : List Fingerprint :=
  if fp ∈ acc then acc else acc ++ [fp]

/-- Deduplicated union of the fingerprint lists, in first-appearance order. -/
def unionFPs (ls : List (List Fingerprint)) : List Fingerprint :=
  ls.foldl (fun acc l => l.foldl insertFP acc) []

/-- Collect the signature fingerprint enumeration of every verify task,
propagating the first task failure. -/
def collectTasks {ε : Type} :
    List (Except ε (List Fingerprint)) → Except ε (List (List Fingerprint))
  | [] => Except.ok []
  | Except.error e :: _ => Except.error e
  | Except.ok l :: ts =>
      match collectTasks ts with
      | Except.error e => Except.error e
      | Except.ok ls => Except.ok (l :: ls)

/-- Modelled from the spec: Verifier.AnySignedBy (pkg/integrity/verify.go is
not under src). The union of signing entities over all tasks is returned;
the operation fails, propagating the task error, if any task cannot
enumerate its signatures. -/
def AnySignedBy {ε : Type} (tasks : List (Except ε (List Fingerprint))) :
    Except ε (List Fingerprint) :=
  match collectTasks tasks with
  | Except.error e => Except.error e
  | Except.ok ls => Except.ok (unionFPs ls)

/-- Modelled from the spec: Verifier.AllSignedBy (pkg/integrity/verify.go is
not under src). A fingerprint is returned only if it signed every task. -/
def AllSignedBy {ε : Type} (tasks : List (Except ε (List Fingerprint))) :
    Except ε (List Fingerprint) :=
  match collectTasks tasks with
  | Except.error e => Except.error e
  | Except.ok ls =>
      Except.ok ((unionFPs ls).filter (fun fp => ls.all (fun l => l.contains fp)))

lemma mem_insertFP (acc : List Fingerprint) (fp x : Fingerprint) :
    x ∈ insertFP acc fp ↔ x ∈ acc ∨ x = fp := by
  by_cases h : fp ∈ acc
  · simp only [insertFP, h, if_true]
    constructor
    · exact Or.inl
    · rintro (hx | hx)
      · exact hx
      · rw [hx]; exact h
  · simp [insertFP, h]

lemma nodup_insertFP (acc : List Fingerprint) (fp : Fingerprint)
    (h : acc.Nodup) : (insertFP acc fp).Nodup := by
  by_cases hm : fp ∈ acc
  · simpa [insertFP, hm] using h
  · simp [insertFP, hm, List.nodup_append, h]

lemma mem_foldl_insertFP (l : List Fingerprint) (acc : List Fingerprint)
    (x : Fingerprint) : x ∈ l.foldl insertFP acc ↔ x ∈ acc ∨ x ∈ l := by
  induction l generalizing acc with
  | nil => simp
  | cons fp rest ih =>
      rw [List.foldl_cons, ih, mem_insertFP]
      simp only [List.mem_cons]
      tauto

lemma nodup_foldl_insertFP (l : List Fingerprint) (acc : List Fingerprint)
    (h : acc.Nodup) : (l.foldl insertFP acc).Nodup := by
  induction l generalizing acc with
  | nil => simpa
  | cons fp rest ih => exact ih (insertFP acc fp) (nodup_insertFP acc fp h)

lemma mem_foldl_union (ls : List (List Fingerprint)) (acc : List Fingerprint)
    (x : Fingerprint) :
    x ∈ ls.foldl (fun acc l => l.foldl insertFP acc) acc ↔
      x ∈ acc ∨ ∃ l ∈ ls, x ∈ l := by
  induction ls generalizing acc with
  | nil => simp
  | cons l rest ih =>
      rw [List.foldl_cons, ih, mem_foldl_insertFP]
      simp only [List.mem_cons]
      constructor
      · rintro (⟨h | h⟩ | ⟨m, hm, hx⟩)
        · exact Or.inl h
        · exact Or.inr ⟨l, Or.inl rfl, h⟩
        · exact Or.inr ⟨m, Or.inr hm, hx⟩
      · rintro (h | ⟨m, hm | hm, hx⟩)
        · exact Or.inl (Or.inl h)
        · exact Or.inl (Or.inr (hm ▸ hx))
        · exact Or.inr ⟨m, hm, hx⟩

lemma mem_unionFPs (ls : List (List Fingerprint)) (x : Fingerprint) :
    x ∈ unionFPs ls ↔ ∃ l ∈ ls, x ∈ l := by
  rw [unionFPs, mem_foldl_union]
  simp

lemma nodup_foldl_union (ls : List (List Fingerprint)) (acc : List Fingerprint)
    (h : acc.Nodup) :
    (ls.foldl (fun acc l => l.foldl insertFP acc) acc).Nodup := by
  induction ls generalizing acc with
  | nil => simpa
  | cons l rest ih => exact ih _ (nodup_foldl_insertFP l acc h)

lemma nodup_unionFPs (ls : List (List Fingerprint)) : (unionFPs ls).Nodup :=
  nodup_foldl_union ls [] (by simp)

lemma collectTasks_map_ok {ε : Type} (ls : List (List Fingerprint)) :
    collectTasks (ε := ε) (ls.map Except.ok) = Except.ok ls := by
  induction ls with
  | nil => rfl
  | cons l rest ih => simp [collectTasks, ih]

lemma collectTasks_error {ε : Type} (tasks : List (Except ε (List Fingerprint)))
    (e : ε) (he : Except.error e ∈ tasks) :
    ∃ e2, collectTasks tasks = Except.error e2 ∧ Except.error e2 ∈ tasks := by
  induction tasks with
  | nil => simp at he
  | cons t rest ih =>
      cases t with
      | error e3 => exact ⟨e3, rfl, List.mem_cons_self _ _⟩
      | ok l =>
          rcases List.mem_cons.mp he with h1 | h2
          · exact absurd h1 (by simp)
          · obtain ⟨e2, hc, hm⟩ := ih h2
            refine ⟨e2, ?_, List.mem_cons_of_mem _ hm⟩
            simp [collectTasks, hc]

lemma all_containsFP_iff (ls : List (List Fingerprint)) (fp : Fingerprint) :
    (ls.all (fun l => l.contains fp) = true) ↔ ∀ l ∈ ls, fp ∈ l := by
  simp [List.all_eq_true, List.contains_iff_exists_mem_beq, beq_iff_eq]

/-- C5: AnySignedBy returns the deduplicated union of signing entity
fingerprints over all verify tasks and fails, propagating a task error, when
some task cannot enumerate its signatures (AllSignedBy propagates likewise);
AllSignedBy returns exactly the fingerprints that signed every task; for one
task covering fingerprint A and another covering A and B, AnySignedBy yields
A and B while AllSignedBy yields only A. -/
theorem AnySignedBy_AllSignedBy_spec {ε : Type}
    (tasks : List (Except ε (List Fingerprint))) :
    (∀ e : ε, Except.error e ∈ tasks →
      ∃ e2, AnySignedBy tasks = Except.error e2 ∧ Except.error e2 ∈ tasks ∧
        AllSignedBy tasks = Except.error e2) ∧
    (∀ ls : List (List Fingerprint), tasks = ls.map Except.ok →
      (∃ u, AnySignedBy tasks = Except.ok u ∧ u.Nodup ∧
        ∀ fp, (fp ∈ u ↔ ∃ l ∈ ls, fp ∈ l)) ∧
      (∃ w, AllSignedBy tasks = Except.ok w ∧ w.Nodup ∧
        ∀ fp, (fp ∈ w ↔ (∃ l ∈ ls, fp ∈ l) ∧ ∀ l ∈ ls, fp ∈ l))) ∧
    (AnySignedBy ([Except.ok [[0]], Except.ok [[0], [1]]] :
        List (Except ε (List Fingerprint))) = Except.ok [[0], [1]] ∧
      AllSignedBy ([Except.ok [[0]], Except.ok [[0], [1]]] :
        List (Except ε (List Fingerprint))) = Except.ok [[0]]) := by
  refine ⟨?_, ?_, rfl, rfl⟩
  · intro e he
    obtain ⟨e2, hc, hm⟩ := collectTasks_error tasks e he
    exact ⟨e2, by simp [AnySignedBy, hc], hm, by simp [AllSignedBy, hc]⟩
  · intro ls hls
    subst hls
    rw [AnySignedBy, AllSignedBy, collectTasks_map_ok]
    refine ⟨⟨unionFPs ls, rfl, nodup_unionFPs ls, fun fp => mem_unionFPs ls fp⟩,
      ⟨_, rfl, (nodup_unionFPs ls).filter _, fun fp => ?_⟩⟩
    rw [List.mem_filter, mem_unionFPs, all_containsFP_iff]

/-- Witness for C5: a task failure propagates, and the concrete two-task
scenario produces union and intersection fingerprint lists. -/
theorem AnySignedBy_AllSignedBy_spec_witness :
    (∃ e2, AnySignedBy ([Except.ok [[0]], Except.error 7] :
        List (Except Nat (List Fingerprint))) = Except.error e2 ∧
      Except.error e2 ∈ ([Except.ok [[0]], Except.error 7] :
        List (Except Nat (List Fingerprint))) ∧
      AllSignedBy ([Except.ok [[0]], Except.error 7] :
        List (Except Nat (List Fingerprint))) = Except.error e2) ∧
    (AnySignedBy ([Except.ok [[0]], Except.ok [[0], [1]]] :
        List (Except Nat (List Fingerprint))) = Except.ok [[0], [1]] ∧
      AllSignedBy ([Except.ok [[0]], Except.ok [[0], [1]]] :
        List (Except Nat (List Fingerprint))) = Except.ok [[0]]) := by
  refine ⟨?_, (AnySignedBy_AllSignedBy_spec
    ([Except.ok [[0]], Except.ok [[0], [1]]] :
      List (Except Nat (List Fingerprint)))).2.2⟩
  exact (AnySignedBy_AllSignedBy_spec
    ([Except.ok [[0]], Except.error 7] :
      List (Except Nat (List Fingerprint)))).1 7 (by simp)

/-- Per-task verification errors observed during Verify. -/
inductive VTaskErr where
  | unknownIssuer
  | signatureNotValid
  | signatureNotFound
  deriving DecidableEq, Repr

/-- Errors returned by Verifier.Verify: the configuration failure
NoKeyMaterial, or a propagated task error. -/
inductive VerifyTopErr where
  | noKeyMaterial
  | task (e : VTaskErr)
  deriving DecidableEq, Repr

/-- The per-task result delivered to the verify callback: signature
descriptor id, verified descriptor ids, signing entity, and the task error. -/
structure TaskResult where
  sigID : Nat
  verified : List Nat
  entity : Option Nat
  err : Option VTaskErr
  deriving DecidableEq, Repr

/-- The verifier: whether a keyring was supplied (even an empty one counts),
whether a verifier set was supplied, the optional callback, and the per-task
results its tasks produce. -/
structure VerifierM where
  krPresent : Bool
  vsPresent : Bool
  cb : Option (TaskResult → Bool)
  tasks : List TaskResult

/-- Whether the optional callback accepts (suppresses) the task result. -/
def cbAccepts (cb : Option (TaskResult → Bool)) (t : TaskResult) : Bool :=
  match cb with
  | none => false
  | some f => f t

/-- Run the verify tasks in order: each per-task result is produced and
delivered to the callback when one is present; a task error is suppressed
when the callback returns true, otherwise it stops the run. Returns the
results produced, in order, and the first unsuppressed error. -/
def runTasks (cb : Option (TaskResult → Bool)) :
    List TaskResult → List TaskResult × Option VTaskErr
  | [] => ([], none)
  | t :: ts =>
      match t.err with
      | none =>
          let r := runTasks cb ts
          (t :: r.1, r.2)
      | some e =>
          if cbAccepts cb t then
            let r := runTasks cb ts
            (t :: r.1, r.2)
          else ([t], some e)

/-- Modelled from the spec: Verifier.Verify (pkg/integrity/verify.go is not
under src). At least one of keyring, verifier set or suppressing callback
must be supplied, else NoKeyMaterial; otherwise the tasks run in order, the
optional callback is invoked with each per-task result, and a true callback
return suppresses that task error; the first unsuppressed task error is
returned. -/
def verify (v : VerifierM) : List TaskResult × Option VerifyTopErr :=
  if v.krPresent || v.vsPresent || v.cb.isSome then
    let r := runTasks v.cb v.tasks
    (r.1, r.2.map VerifyTopErr.task)
  else ([], some VerifyTopErr.noKeyMaterial)

lemma runTasks_all_suppressed (f : TaskResult → Bool) (ts : List TaskResult)
    (h : ∀ t ∈ ts, t.err ≠ none → f t = true) :
    runTasks (some f) ts = (ts, none) := by
  induction ts with
  | nil => rfl
  | cons t rest ih =>
      have hrest := ih fun t1 ht1 => h t1 (List.mem_cons_of_mem t ht1)
      cases he : t.err with
      | none => simp [runTasks, he, hrest]
      | some e =>
          have hft : f t = true := h t (List.mem_cons_self t rest) (by simp [he])
          simp [runTasks, he, cbAccepts, hft, hrest]

lemma runTasks_first_error (f : TaskResult → Bool) (ts1 ts2 : List TaskResult)
    (t : TaskResult) (e : VTaskErr)
    (h1 : ∀ t1 ∈ ts1, t1.err ≠ none → f t1 = true)
    (he : t.err = some e) (hf : f t = false) :
    runTasks (some f) (ts1 ++ t :: ts2) = (ts1 ++ [t], some e) := by
  induction ts1 with
  | nil => simp [runTasks, he, cbAccepts, hf]
  | cons t1 rest ih =>
      have hrest := ih fun u hu => h1 u (List.mem_cons_of_mem t1 hu)
      cases he1 : t1.err with
      | none => simp [runTasks, he1, hrest]
      | some e1 =>
          have hft : f t1 = true :=
            h1 t1 (List.mem_cons_self t1 rest) (by simp [he1])
          simp [runTasks, he1, cbAccepts, hft, hrest]

/-- C7: Verify runs every task; the callback receives each per-task result,
and when it returns true for every erroring task all errors are suppressed
and Verify succeeds; when a task error is not suppressed, that error is
returned and the erroring task result was delivered to the callback before
the return. With an empty-but-present keyring, a callback returning true for
an UnknownIssuer task makes Verify succeed. -/
theorem verify_callback_spec (v : VerifierM) (f : TaskResult → Bool)
    (hcb : v.cb = some f) :
    ((∀ t ∈ v.tasks, t.err ≠ none → f t = true) →
      (verify v).2 = none ∧ (verify v).1 = v.tasks) ∧
    (∀ ts1 t ts2 (e : VTaskErr), v.tasks = ts1 ++ t :: ts2 →
      (∀ t1 ∈ ts1, t1.err ≠ none → f t1 = true) →
      t.err = some e → f t = false →
      (verify v).2 = some (VerifyTopErr.task e) ∧
      (verify v).1 = ts1 ++ [t] ∧ t ∈ (verify v).1) := by
  have hkm : (v.krPresent || v.vsPresent || v.cb.isSome) = true := by
    simp [hcb]
  constructor
  · intro hall
    rw [verify, if_pos hkm, hcb, runTasks_all_suppressed f v.tasks hall]
    exact ⟨rfl, rfl⟩
  · intro ts1 t ts2 e hsplit h1 he hf
    rw [verify, if_pos hkm, hcb, hsplit, runTasks_first_error f ts1 ts2 t e h1 he hf]
    exact ⟨rfl, rfl, by simp⟩

/-- Witness for C7: one task failing with UnknownIssuer, an empty-but-present
keyring and a callback returning true; Verify succeeds and the task result
was delivered; with a callback returning false, the error is returned after
the result was delivered. -/
theorem verify_callback_spec_witness :
    ((verify ⟨true, false, some (fun _ => true),
        [⟨3, [], none, some VTaskErr.unknownIssuer⟩]⟩).2 = none ∧
      (verify ⟨true, false, some (fun _ => true),
        [⟨3, [], none, some VTaskErr.unknownIssuer⟩]⟩).1 =
        [⟨3, [], none, some VTaskErr.unknownIssuer⟩]) ∧
    ((verify ⟨true, false, some (fun _ => false),
        [⟨3, [], none, some VTaskErr.unknownIssuer⟩]⟩).2 =
        some (VerifyTopErr.task VTaskErr.unknownIssuer) ∧
      (verify ⟨true, false, some (fun _ => false),
        [⟨3, [], none, some VTaskErr.unknownIssuer⟩]⟩).1 =
        [] ++ [⟨3, [], none, some VTaskErr.unknownIssuer⟩] ∧
      (⟨3, [], none, some VTaskErr.unknownIssuer⟩ : TaskResult) ∈
        (verify ⟨true, false, some (fun _ => false),
          [⟨3, [], none, some VTaskErr.unknownIssuer⟩]⟩).1) := by
  constructor
  · exact (verify_callback_spec ⟨true, false, some (fun _ => true),
      [⟨3, [], none, some VTaskErr.unknownIssuer⟩]⟩ (fun _ => true) rfl).1
      (fun t ht he => rfl)
  · exact (verify_callback_spec ⟨true, false, some (fun _ => false),
      [⟨3, [], none, some VTaskErr.unknownIssuer⟩]⟩ (fun _ => false) rfl).2
      [] ⟨3, [], none, some VTaskErr.unknownIssuer⟩ []
      VTaskErr.unknownIssuer rfl (fun t1 ht1 => absurd ht1 (by simp)) rfl rfl
